import Mathlib

/-
  Shallow embedding of `src/betflow/historical/hist_api_connectors/hist_odds_conn.py`
  (class `HistoricalOddsConnector`).

  Modelling conventions:
  * instants are naturals (seconds for the rate limiter, minutes for game
    timestamps — each matching the unit the source manipulates there);
  * decoded JSON objects are association lists `List (String × String)`;
    Python dict truthiness (`if odds_data:`) is non-emptiness, and
    `"k" in data` is `(data.lookup "k").isSome`;
  * `await asyncio.sleep t` advances an explicit clock; back-to-back calls
    are modelled with no time passing between them other than those sleeps;
  * raised exceptions are `Except.error`, normal returns `Except.ok`;
  * network I/O is external: a fetch function returns the `HttpRequest` the
    source would issue, and the handling of a decoded response body is a
    separate pure function of that body.
-/

namespace HistOdds

/-- Mutable state of a `HistoricalOddsConnector` (constructor, line 11-19),
together with the simulation clock. `request_timestamps` is the
`deque(maxlen=300)` holding the recorded request instants, oldest first. -/
structure ConnState where
  clock : Nat
  request_timestamps : List Nat
  deriving Repr, DecidableEq

/-- Fresh connector: empty history; the clock starts at 0. -/
def initState : ConnState := ⟨0, []⟩

/-- `collections.deque(maxlen := m)` append: adds `x` on the right and, when the
deque is already at capacity `m`, discards elements on the left. -/
def dequeAppend (maxlen : Nat) (l : List Nat) (x : Nat) : List Nat :=
  if l.length < maxlen then l ++ [x]
  else (l.drop (l.length + 1 - maxlen)) ++ [x]

/-- `_rate_limit` (lines 21-28): capture `now`; if the history length is
exactly 30, compute the seconds elapsed since the oldest entry and sleep for
the remainder of 60 seconds when under 60; finally append the pre-sleep `now`
to the history (whose `maxlen` is 300, line 19). -/
def rate_limit (s : ConnState) : ConnState :=
  let now := s.clock
  let wait :=
    if s.request_timestamps.length = 30 then
      let elapsed := now - s.request_timestamps.headD 0
      if elapsed < 60 then 60 - elapsed else 0
    else 0
  ⟨now + wait, dequeAppend 300 s.request_timestamps now⟩

/-- `n` back-to-back `_rate_limit` calls starting from a fresh connector.
Returns the final state and the ordered list of issue instants: the clock
value at which each call returns (i.e. when the request is dispatched). -/
def runAcquire : Nat → ConnState × List Nat
  | 0 => (initState, [])
  | n + 1 =>
    let p := runAcquire n
    let s := rate_limit p.1
    (s, p.2 ++ [s.clock])

/-- `self.sport_keys` (lines 13-18). -/
def sport_keys : List (String × String) :=
  [("nfl", "americanfootball_nfl"), ("cfb", "americanfootball_ncaaf"),
   ("nba", "basketball_nba"), ("nhl", "icehockey_nhl")]

/-- `self.base_url` (line 12). -/
def base_url : String := "https://api.the-odds-api.com/v4/historical/sports"

/-- The outgoing GET request a fetch would issue. -/
structure HttpRequest where
  url : String
  params : List (String × String)
  deriving Repr, DecidableEq

/-- Line 38: `formatted_date = f"..."` appends a literal `T00:00:00Z` to the
`date` argument. -/
def formatted_date (date : String) : String := date ++ "T00:00:00Z"

/-- `fetch_odds_by_date` (lines 30-46) up to the network call: rate limit,
then the `self.sport_keys[sport]` lookup (a `KeyError` escapes when the sport
code is unknown), then the request that would be issued. -/
def fetch_odds_by_date (s : ConnState) (api_key sport date : String) :
    ConnState × Except String HttpRequest :=
  let s1 := rate_limit s
  match sport_keys.lookup sport with
  | none => (s1, Except.error ("KeyError: " ++ sport))
  | some key =>
    (s1, Except.ok ⟨base_url ++ "/" ++ key ++ "/odds",
      [("apiKey", api_key), ("regions", "us"), ("markets", "h2h"),
       ("oddsFormat", "american"), ("date", formatted_date date)]⟩)

/-- `fetch_odds_by_date` response handling (lines 48-52): on a decoded body
containing the key `"error_code"` the function raises
`Exception(f"API Error: ...")` built from the body's `"message"` entry
(itself a `KeyError` when that entry is absent); otherwise the body is
returned. -/
def fetch_odds_by_date_response (data : List (String × String)) :
    Except String (List (String × String)) :=
  if (data.lookup "error_code").isSome then
    match data.lookup "message" with
    | some m => Except.error ("API Error: " ++ m)
    | none => Except.error "KeyError: message"
  else Except.ok data

/-- `fetch_odds_snapshot` (lines 91-102) up to the network call: rate limit,
then the `self.sport_keys[sport]` lookup, then the event-scoped request that
would be issued. -/
def fetch_odds_snapshot (s : ConnState) (api_key sport game_id timestamp : String) :
    ConnState × Except String HttpRequest :=
  let s1 := rate_limit s
  match sport_keys.lookup sport with
  | none => (s1, Except.error ("KeyError: " ++ sport))
  | some key =>
    (s1, Except.ok ⟨base_url ++ "/" ++ key ++ "/events/" ++ game_id ++ "/odds",
      [("apiKey", api_key), ("regions", "us"), ("markets", "h2h"),
       ("date", timestamp)]⟩)

/-- `fetch_odds_snapshot` response handling (lines 104-105): the decoded body
is returned unconditionally — no provider-error check. -/
def fetch_odds_snapshot_response (data : List (String × String)) :
    Except String (List (String × String)) :=
  Except.ok data

/-- A game record as read by this module: `game["id"]`,
`game["commence_time"]` (minutes), and the key set of `game.get("scores", {})`. -/
structure Game where
  id : String
  commence_time : Nat
  scores : List String
  deriving Repr, DecidableEq

/-- Line 73 (`fetch_game_odds_history`):
`game_duration = 180 if sport not in ["nfl", "ncaa"] else 240`. -/
def fetch_hist_game_duration (sport : String) : Nat :=
  if sport = "nfl" ∨ sport = "ncaa" then 240 else 180

/-- Lines 113-119 (`process_game_odds`): default 180; 240 when
`sport in ["nfl", "ncaa"]`; otherwise (`elif`) +30 when `"overtime"` is a key
of `game.get("scores", {})`. -/
def game_duration_for (sport : String) (game : Game) : Nat :=
  if sport = "nfl" ∨ sport = "ncaa" then 240
  else if "overtime" ∈ game.scores then 180 + 30
  else 180

/-- The `while current <= end_time` loop of `generate_game_timestamps`
(lines 62-65), over instants in minutes. -/
def genLoop (endT interval : Nat) (hi : 0 < interval) (current : Nat) : List Nat :=
  if h : current ≤ endT then current :: genLoop endT interval hi (current + interval)
  else []
termination_by endT + 1 - current
decreasing_by omega

/-- `generate_game_timestamps` (lines 54-67): instants from `game_start`
through `game_start + game_duration`, stepping by `interval` minutes. The
source requires a positive interval (with `interval = 0` the Python loop
would not terminate; every call site uses the default 30). -/
def generate_game_timestamps (game_start game_duration : Nat)
    (interval : Nat) (hi : 0 < interval) : List Nat :=
  genLoop (game_start + game_duration) interval hi game_start

/-- The timestamp sequence `process_game_odds` generates for a game
(lines 121). -/
def game_timestamps (sport : String) (game : Game) : List Nat :=
  generate_game_timestamps game.commence_time (game_duration_for sport game) 30
    (by omega)

/-- One entry of the game odds history built by `process_game_odds`
(lines 129-135). -/
structure OddsRecord where
  game_id : String
  timestamp : Nat
  odds_snapshot : List (String × String)
  deriving Repr, DecidableEq

/-- The `for timestamp in timestamps` loop of `process_game_odds`
(lines 124-140): each fetch is tried; a raised error is caught, printed, and
the loop continues; a truthy (non-empty) payload is appended. The snapshot
fetcher's behaviour is abstracted as `fetch`. -/
def processGameLoop (gid : String)
    (fetch : Nat → Except String (List (String × String))) :
    List Nat → List OddsRecord
  | [] => []
  | t :: ts =>
    match fetch t with
    | Except.ok odds_data =>
      if odds_data = [] then processGameLoop gid fetch ts
      else ⟨gid, t, odds_data⟩ :: processGameLoop gid fetch ts
    | Except.error _ => processGameLoop gid fetch ts

/-- `process_game_odds` (lines 107-142): duration, timestamp generation, and
the fetch loop. -/
def process_game_odds (sport : String) (game : Game)
    (fetch : Nat → Except String (List (String × String))) : List OddsRecord :=
  processGameLoop game.id fetch (game_timestamps sport game)

/-- The batching of `fetch_season_odds` (lines 151-152):
`for i in range(0, len(games), batch_size): batch = games[i : i + batch_size]`. -/
def batches {G : Type} (batch_size : Nat) (hbs : 0 < batch_size) :
    List G → List (List G)
  | [] => []
  | g :: gs => ((g :: gs).take batch_size)
      :: batches batch_size hbs ((g :: gs).drop batch_size)
termination_by l => l.length
decreasing_by simp only [List.length_drop, List.length_cons]; omega

/-- The completion log of one batch run under `asyncio.gather`: the batch's
tasks finish in the arbitrary order given by `order` (a permutation of the
task indices), each completion contributing the pair
(task index, that game's processor output). -/
def completionLog {G R : Type} (proc : G → R) (batch : List G)
    (order : List Nat) : List (Nat × R) :=
  order.filterMap fun k => (batch.get? k).map fun g => (k, proc g)

/-- `asyncio.gather` result: the completion log's results slotted back by
task index, i.e. returned in task order regardless of completion order. -/
def gatherByIndex {R : Type} (n : Nat) (log : List (Nat × R)) : List R :=
  (List.range n).filterMap fun idx => (log.find? fun e => e.fst == idx).map Prod.snd

/-- `fetch_season_odds` (lines 144-162) with the per-game processor
abstracted as `proc` (`self.process_game_odds` with the session and sport
applied) and with one completion order per batch standing for the scheduling
nondeterminism inside `asyncio.gather`. Each batch's gathered per-game lists
are flattened in order (`all_odds_data.extend(game_odds)`), and batches are
processed sequentially. -/
def fetch_season_odds {G R : Type} (proc : G → List R) (games : List G)
    (batch_size : Nat) (hbs : 0 < batch_size)
    (orders : List (List Nat)) : List R :=
  (((batches batch_size hbs games).zip orders).map
    fun p => (gatherByIndex p.1.length (completionLog proc p.1 p.2)).flatten).flatten

/-! ### Helper lemmas -/

lemma map_range_step (c i m : Nat) :
    (List.range (m + 1)).map (fun k => c + k * i) =
      c :: (List.range m).map (fun k => (c + i) + k * i) := by
  rw [List.range_succ_eq_map]
  simp only [List.map_cons, List.map_map, Nat.zero_mul, Nat.add_zero]
  congr 1
  apply List.map_congr_left
  intro k _
  simp only [Function.comp_apply, Nat.succ_eq_add_one]
  ring

/-- Closed form of the `while` loop: the arithmetic progression from
`current` by `interval`, stopping at the last step at or below `endT`. -/
lemma genLoop_eq (endT interval : Nat) (hi : 0 < interval) (current : Nat) :
    genLoop endT interval hi current =
      if current ≤ endT then
        (List.range ((endT - current) / interval + 1)).map
          (fun k => current + k * interval)
      else [] := by
  have H : ∀ n current, endT + 1 - current ≤ n →
      genLoop endT interval hi current =
        if current ≤ endT then
          (List.range ((endT - current) / interval + 1)).map
            (fun k => current + k * interval)
        else [] := by
    intro n
    induction n with
    | zero =>
      intro c hc
      rw [genLoop]
      have hgt : ¬ c ≤ endT := by omega
      simp [hgt]
    | succ n ih =>
      intro c hc
      rw [genLoop]
      by_cases hle : c ≤ endT
      · simp only [hle, dif_pos, if_pos]
        rw [ih (c + interval) (by omega)]
        by_cases hle2 : c + interval ≤ endT
        · simp only [hle2, if_pos]
          have hsub : endT - (c + interval) = (endT - c) - interval := by omega
          have hdiv : (endT - c) / interval = ((endT - c) - interval) / interval + 1 := by
            rw [Nat.div_eq_sub_div hi (by omega)]
          rw [hsub]
          conv_rhs => rw [hdiv, map_range_step]
        · simp only [hle2, if_neg, not_false_iff]
          have hdiv : (endT - c) / interval = 0 :=
            Nat.div_eq_of_lt (by omega)
          rw [hdiv]
          simp [List.range_succ]
      · simp [hle]
  exact H (endT + 1 - current) current (Nat.le_refl _)

lemma generate_eq (T d i : Nat) (hi : 0 < i) :
    generate_game_timestamps T d i hi =
      (List.range (d / i + 1)).map (fun k => T + k * i) := by
  unfold generate_game_timestamps
  rw [genLoop_eq]
  simp [Nat.le_add_right, Nat.add_sub_cancel_left]

lemma getLast?_map_range (f : Nat → Nat) (n : Nat) :
    ((List.range (n + 1)).map f).getLast? = some (f n) := by
  rw [List.range_succ, List.map_append]
  simp

lemma generate_sorted (T d i : Nat) (hi : 0 < i) :
    (generate_game_timestamps T d i hi).Sorted (· < ·) := by
  rw [generate_eq]
  exact (List.pairwise_lt_range _).map _
    (fun a b hab => Nat.add_lt_add_left ((Nat.mul_lt_mul_right hi).mpr hab) T)

/-! ### Claims -/

set_option maxRecDepth 100000

/-- C1: the claim says no 60-second sliding window ever contains more than 30
accepted requests.  The code violates it: `request_timestamps` was constructed
with `maxlen=300` (line 19), so after the 31st call the `len(...) == 30` guard
of `_rate_limit` never fires again and calls 32, 33, ... proceed with no wait.
After 61 back-to-back calls, 31 requests are issued within the single
60-second window `(0, 60]`; moreover the recorded timestamps after just 31
calls contain 31 entries at the same instant 0. -/
theorem rate_limiter_window_violated :
    ((runAcquire 61).2.filter (fun t => decide (0 < t ∧ t ≤ 60))).length = 31 ∧
    ((runAcquire 31).1.request_timestamps.filter (fun t => decide (t = 0))).length
      = 31 := by
  decide

/-- C3: the claim says the rate-limiter history is a FIFO of capacity exactly
30, with the oldest entry evicted as soon as a 31st is appended.  The code
constructs `deque(maxlen=300)` (line 19): after 31 back-to-back acquires the
history holds 31 entries, it keeps growing up to 300, and eviction begins
only with the 301st append. -/
theorem request_history_capacity_is_300_not_30 :
    (runAcquire 31).1.request_timestamps.length = 31 ∧
    (runAcquire 300).1.request_timestamps.length = 300 ∧
    (runAcquire 301).1.request_timestamps.length = 300 := by
  decide

/-- C5: `generate_game_timestamps start d i` (with `i > 0`) returns the
ordered sequence `start, start+i, start+2i, ...`; its first element is
`start`, it has at least one element, it never overshoots `start + d`, its
last element is the largest step at or below `start + d`, and the two
concrete instances of the spec hold: duration 180 gives the 7 instants
`T, T+30, ..., T+180`, and duration 0 gives `[T]`. -/
theorem generate_game_timestamps_correct (T d i : Nat) (hi : 0 < i) :
    generate_game_timestamps T d i hi =
        (List.range (d / i + 1)).map (fun k => T + k * i) ∧
      (generate_game_timestamps T d i hi).head? = some T ∧
      1 ≤ (generate_game_timestamps T d i hi).length ∧
      (generate_game_timestamps T d i hi).Sorted (· < ·) ∧
      (∀ t ∈ generate_game_timestamps T d i hi, t ≤ T + d) ∧
      (generate_game_timestamps T d i hi).getLast? = some (T + (d / i) * i) ∧
      (∀ k, T + k * i ≤ T + d → T + k * i ≤ T + (d / i) * i) ∧
      generate_game_timestamps T 180 30 (by omega) =
        [T, T + 30, T + 60, T + 90, T + 120, T + 150, T + 180] ∧
      generate_game_timestamps T 0 30 (by omega) = [T] := by
  refine ⟨generate_eq T d i hi, ?_, ?_, generate_sorted T d i hi, ?_, ?_, ?_, ?_, ?_⟩
  · rw [generate_eq, List.range_succ_eq_map]
    simp
  · rw [generate_eq]
    simp
  · rw [generate_eq]
    intro t ht
    simp only [List.mem_map, List.mem_range] at ht
    obtain ⟨k, hk, rfl⟩ := ht
    have h1 : k ≤ d / i := by omega
    have h2 : k * i ≤ (d / i) * i := Nat.mul_le_mul_right i h1
    have h3 : (d / i) * i ≤ d := Nat.div_mul_le_self d i
    omega
  · rw [generate_eq, getLast?_map_range]
  · intro k hk
    have hk2 : k * i ≤ d := by omega
    have h1 : k ≤ d / i := (Nat.le_div_iff_mul_le hi).mpr hk2
    have h2 : k * i ≤ (d / i) * i := Nat.mul_le_mul_right i h1
    omega
  · rw [generate_eq]
    norm_num [List.range_succ]
  · rw [generate_eq]
    norm_num [List.range_succ]

/-- Witness for C5 at `T = 0`, `d = 60`, `i = 30`. -/
theorem generate_game_timestamps_correct_witness :
    0 < 30 ∧
    (generate_game_timestamps 0 60 30 (by omega) =
        (List.range (60 / 30 + 1)).map (fun k => 0 + k * 30) ∧
      (generate_game_timestamps 0 60 30 (by omega)).head? = some 0 ∧
      1 ≤ (generate_game_timestamps 0 60 30 (by omega)).length ∧
      (generate_game_timestamps 0 60 30 (by omega)).Sorted (· < ·) ∧
      (∀ t ∈ generate_game_timestamps 0 60 30 (by omega), t ≤ 0 + 60) ∧
      (generate_game_timestamps 0 60 30 (by omega)).getLast? =
        some (0 + (60 / 30) * 30) ∧
      (∀ k, 0 + k * 30 ≤ 0 + 60 → 0 + k * 30 ≤ 0 + (60 / 30) * 30) ∧
      generate_game_timestamps 0 180 30 (by omega) =
        [0, 0 + 30, 0 + 60, 0 + 90, 0 + 120, 0 + 150, 0 + 180] ∧
      generate_game_timestamps 0 0 30 (by omega) = [0]) :=
  ⟨by omega, generate_game_timestamps_correct 0 60 30 (by omega)⟩

/-- C2: the claim says the `date` query parameter equals the given instant;
in particular a timestamp produced by the timestamp generator is passed
through unchanged.  The code (line 38) appends a literal `"T00:00:00Z"` to
its `date` argument, so a generator-produced instant such as
`2024-01-01T00:30:00Z` is sent as the malformed
`2024-01-01T00:30:00ZT00:00:00Z`, not as the given instant. -/
theorem date_param_is_not_the_given_instant :
    (fetch_odds_by_date initState "key" "nba" "2024-01-01T00:30:00Z").2.map
        (fun r => r.params.lookup "date") =
      Except.ok (some "2024-01-01T00:30:00ZT00:00:00Z") ∧
    formatted_date "2024-01-01T00:30:00Z" = "2024-01-01T00:30:00ZT00:00:00Z" ∧
    "2024-01-01T00:30:00ZT00:00:00Z" ≠ "2024-01-01T00:30:00Z" := by
  refine ⟨rfl, rfl, ?_⟩
  decide

/-- C4: the claim says the nominal duration is 240 minutes exactly for the
gridiron-football codes of the sport-key table, i.e. "nfl" and "cfb".  The
code (lines 73 and 116-117) tests membership in `["nfl", "ncaa"]` instead:
"cfb" — a gridiron code per the table — gets 180, while "ncaa" — absent from
the table, so any fetch for it raises `KeyError` — gets 240. -/
theorem cfb_duration_is_180 :
    sport_keys.lookup "cfb" = some "americanfootball_ncaaf" ∧
    fetch_hist_game_duration "cfb" = 180 ∧
    game_duration_for "cfb" ⟨"g1", 0, []⟩ = 180 ∧
    sport_keys.lookup "ncaa" = none ∧
    fetch_hist_game_duration "ncaa" = 240 ∧
    fetch_hist_game_duration "nfl" = 240 ∧
    fetch_hist_game_duration "nba" = 180 := by
  decide

/-- C6 counterexample: the claim quantifies over every sport code, but for
"nfl" (and "ncaa") the overtime branch is an `elif` of the football branch
(lines 116-119), so a game with the overtime indication gets exactly the same
duration and timestamp sequence as the same game without it. -/
theorem overtime_ignored_for_football :
    game_duration_for "nfl" ⟨"g1", 0, ["overtime"]⟩ =
        game_duration_for "nfl" ⟨"g1", 0, []⟩ ∧
    game_timestamps "nfl" ⟨"g1", 0, ["overtime"]⟩ =
        game_timestamps "nfl" ⟨"g1", 0, []⟩ := by
  exact ⟨rfl, rfl⟩

/-- C6 as amended: for every sport code other than "nfl" and "ncaa", a game
whose scores indicate overtime gets a duration 30 minutes longer than an
otherwise-identical game without the indication, and its generated timestamp
sequence is one 30-minute step longer, reaching `commence_time + 210` instead
of `commence_time + 180`. -/
theorem overtime_extends_duration_for_non_football
    (sport gid : String) (ct : Nat) (s1 s2 : List String)
    (h1 : sport ≠ "nfl") (h2 : sport ≠ "ncaa")
    (hot : "overtime" ∈ s1) (hnot : "overtime" ∉ s2) :
    game_duration_for sport ⟨gid, ct, s1⟩ =
        game_duration_for sport ⟨gid, ct, s2⟩ + 30 ∧
    (game_timestamps sport ⟨gid, ct, s1⟩).length =
        (game_timestamps sport ⟨gid, ct, s2⟩).length + 1 ∧
    (game_timestamps sport ⟨gid, ct, s1⟩).getLast? = some (ct + 210) ∧
    (game_timestamps sport ⟨gid, ct, s2⟩).getLast? = some (ct + 180) := by
  have hd1 : game_duration_for sport ⟨gid, ct, s1⟩ = 210 := by
    simp [game_duration_for, h1, h2, hot]
  have hd2 : game_duration_for sport ⟨gid, ct, s2⟩ = 180 := by
    simp [game_duration_for, h1, h2, hnot]
  refine ⟨by rw [hd1, hd2], ?_, ?_, ?_⟩
  · unfold game_timestamps
    rw [hd1, hd2, generate_eq, generate_eq]
    simp
  · unfold game_timestamps
    rw [hd1, generate_eq, getLast?_map_range]
  · unfold game_timestamps
    rw [hd2, generate_eq, getLast?_map_range]

/-- Witness for the amended C6 at sport "nba". -/
theorem overtime_extends_duration_for_non_football_witness :
    ("nba" : String) ≠ "nfl" ∧ ("nba" : String) ≠ "ncaa" ∧
    "overtime" ∈ ["overtime"] ∧ "overtime" ∉ ([] : List String) ∧
    (game_duration_for "nba" ⟨"g", 0, ["overtime"]⟩ =
        game_duration_for "nba" ⟨"g", 0, []⟩ + 30 ∧
      (game_timestamps "nba" ⟨"g", 0, ["overtime"]⟩).length =
        (game_timestamps "nba" ⟨"g", 0, []⟩).length + 1 ∧
      (game_timestamps "nba" ⟨"g", 0, ["overtime"]⟩).getLast? = some (0 + 210) ∧
      (game_timestamps "nba" ⟨"g", 0, []⟩).getLast? = some (0 + 180)) :=
  ⟨by decide, by decide, by decide, by decide,
    overtime_extends_duration_for_non_football "nba" "g" 0 ["overtime"] []
      (by decide) (by decide) (by decide) (by decide)⟩

/-- C9 counterexample: the claim says both request shapes surface a
transport-successful body that embeds a provider error indicator as a raised
failure.  The event-scoped `fetch_odds_snapshot` (lines 104-105) performs no
such check: a body carrying `"error_code"` is returned as a successful
payload. -/
theorem snapshot_returns_embedded_error_as_ok :
    (([("error_code", "401"), ("message", "m")] :
        List (String × String)).lookup "error_code").isSome = true ∧
    fetch_odds_snapshot_response [("error_code", "401"), ("message", "m")] =
      Except.ok [("error_code", "401"), ("message", "m")] :=
  ⟨by decide, rfl⟩

/-- C9 as amended: only the date-scoped `fetch_odds_by_date` surfaces a body
embedding a provider error indicator as a raised failure (lines 50-51); the
event-scoped `fetch_odds_snapshot` returns every decoded body unchanged. -/
theorem provider_error_raised_only_by_date_shape
    (data : List (String × String))
    (herr : (data.lookup "error_code").isSome = true) :
    (∃ msg, fetch_odds_by_date_response data = Except.error msg) ∧
    fetch_odds_snapshot_response data = Except.ok data := by
  refine ⟨?_, rfl⟩
  cases hm : data.lookup "message" with
  | some m =>
    exact ⟨"API Error: " ++ m, by simp [fetch_odds_by_date_response, herr, hm]⟩
  | none =>
    exact ⟨"KeyError: message", by simp [fetch_odds_by_date_response, herr, hm]⟩

/-- Witness for the amended C9. -/
theorem provider_error_raised_only_by_date_shape_witness :
    (([("error_code", "401"), ("message", "bad key")] :
        List (String × String)).lookup "error_code").isSome = true ∧
    ((∃ msg, fetch_odds_by_date_response [("error_code", "401"), ("message", "bad key")] =
        Except.error msg) ∧
      fetch_odds_snapshot_response [("error_code", "401"), ("message", "bad key")] =
        Except.ok [("error_code", "401"), ("message", "bad key")]) :=
  ⟨by decide,
    provider_error_raised_only_by_date_shape
      [("error_code", "401"), ("message", "bad key")] (by decide)⟩

lemma dequeAppend_length (m : Nat) (hm : 0 < m) (l : List Nat) (x : Nat) :
    (dequeAppend m l x).length = min (l.length + 1) m := by
  unfold dequeAppend
  by_cases h : l.length < m
  · rw [if_pos h]
    simp only [List.length_append, List.length_cons, List.length_nil]
    omega
  · rw [if_neg h]
    simp only [List.length_append, List.length_drop, List.length_cons,
      List.length_nil]
    omega

/-- C10: in both `fetch_odds_by_date` (lines 34-35) and `fetch_odds_snapshot`
(lines 95-96), `_rate_limit` appends exactly one timestamp to the history
before `self.sport_keys[sport]` is evaluated; hence a call with an
unrecognized sport code raises `KeyError` with the limiter state already
charged by one slot (one entry appended, up to the deque capacity), even
though no request is issued. -/
theorem rate_limit_charged_before_sport_lookup
    (s : ConnState) (api_key sport date game_id timestamp : String)
    (hunknown : sport_keys.lookup sport = none) :
    (fetch_odds_by_date s api_key sport date).1 = rate_limit s ∧
    (fetch_odds_by_date s api_key sport date).1.request_timestamps.length =
      min (s.request_timestamps.length + 1) 300 ∧
    (fetch_odds_by_date s api_key sport date).2 =
      Except.error ("KeyError: " ++ sport) ∧
    (fetch_odds_snapshot s api_key sport game_id timestamp).1 = rate_limit s ∧
    (fetch_odds_snapshot s api_key sport game_id timestamp).1.request_timestamps.length =
      min (s.request_timestamps.length + 1) 300 ∧
    (fetch_odds_snapshot s api_key sport game_id timestamp).2 =
      Except.error ("KeyError: " ++ sport) := by
  have hlen : (rate_limit s).request_timestamps.length =
      min (s.request_timestamps.length + 1) 300 :=
    dequeAppend_length 300 (by omega) s.request_timestamps s.clock
  unfold fetch_odds_by_date fetch_odds_snapshot
  rw [hunknown]
  exact ⟨rfl, hlen, rfl, rfl, hlen, rfl⟩

/-- Witness for C10 at the unknown sport code "ncaa". -/
theorem rate_limit_charged_before_sport_lookup_witness :
    sport_keys.lookup "ncaa" = none ∧
    ((fetch_odds_by_date initState "key" "ncaa" "2024-01-01").1 =
        rate_limit initState ∧
      (fetch_odds_by_date initState "key" "ncaa" "2024-01-01").1.request_timestamps.length =
        min (initState.request_timestamps.length + 1) 300 ∧
      (fetch_odds_by_date initState "key" "ncaa" "2024-01-01").2 =
        Except.error ("KeyError: " ++ "ncaa") ∧
      (fetch_odds_snapshot initState "key" "ncaa" "G1" "2024-01-01T00:30:00Z").1 =
        rate_limit initState ∧
      (fetch_odds_snapshot initState "key" "ncaa" "G1" "2024-01-01T00:30:00Z").1.request_timestamps.length =
        min (initState.request_timestamps.length + 1) 300 ∧
      (fetch_odds_snapshot initState "key" "ncaa" "G1" "2024-01-01T00:30:00Z").2 =
        Except.error ("KeyError: " ++ "ncaa")) :=
  ⟨by decide,
    rate_limit_charged_before_sport_lookup initState "key" "ncaa" "2024-01-01"
      "G1" "2024-01-01T00:30:00Z" (by decide)⟩

lemma processGameLoop_append (gid : String)
    (fetch : Nat → Except String (List (String × String))) (a b : List Nat) :
    processGameLoop gid fetch (a ++ b) =
      processGameLoop gid fetch a ++ processGameLoop gid fetch b := by
  induction a with
  | nil => simp [processGameLoop]
  | cons t ts ih =>
    simp only [List.cons_append, processGameLoop]
    cases fetch t with
    | ok p => by_cases hp : p = [] <;> simp [hp, ih]
    | error e => simp [ih]

lemma processGameLoop_map_timestamp (gid : String)
    (fetch : Nat → Except String (List (String × String))) (l : List Nat)
    (h : ∀ t ∈ l, ∃ p, fetch t = Except.ok p ∧ p ≠ []) :
    (processGameLoop gid fetch l).map (fun r => r.timestamp) = l := by
  induction l with
  | nil => simp [processGameLoop]
  | cons t ts ih =>
    obtain ⟨p, hp, hne⟩ := h t (List.mem_cons_self t ts)
    simp only [processGameLoop, hp]
    rw [if_neg hne]
    simp only [List.map_cons]
    rw [ih (fun x hx => h x (List.mem_cons_of_mem _ hx))]

lemma processGameLoop_game_id (gid : String)
    (fetch : Nat → Except String (List (String × String))) (l : List Nat) :
    ∀ r ∈ processGameLoop gid fetch l, r.game_id = gid := by
  induction l with
  | nil => simp [processGameLoop]
  | cons t ts ih =>
    intro r hr
    simp only [processGameLoop] at hr
    split at hr
    · split at hr
      · exact ih r hr
      · cases hr with
        | head => rfl
        | tail _ hr => exact ih r hr
    · exact ih r hr

/-- C7: if the generated timestamp sequence splits as `l1 ++ tf :: l2` where
fetching `tf` raises and every other timestamp succeeds with a non-empty
payload, then `process_game_odds` returns (never raises) the history of
exactly the non-failed entries, in ascending timestamp order, with `tf`'s
entry omitted — length N-1 for the N generated timestamps. -/
theorem process_game_odds_failure_isolation
    (sport : String) (game : Game)
    (fetch : Nat → Except String (List (String × String)))
    (l1 l2 : List Nat) (tf : Nat) (msg : String)
    (hsplit : game_timestamps sport game = l1 ++ tf :: l2)
    (herr : fetch tf = Except.error msg)
    (h1 : ∀ t ∈ l1, ∃ p, fetch t = Except.ok p ∧ p ≠ [])
    (h2 : ∀ t ∈ l2, ∃ p, fetch t = Except.ok p ∧ p ≠ []) :
    (process_game_odds sport game fetch).map (fun r => r.timestamp) = l1 ++ l2 ∧
    (process_game_odds sport game fetch).length =
      (game_timestamps sport game).length - 1 ∧
    ((process_game_odds sport game fetch).map (fun r => r.timestamp)).Sorted (· < ·) ∧
    tf ∉ (process_game_odds sport game fetch).map (fun r => r.timestamp) ∧
    ∀ r ∈ process_game_odds sport game fetch, r.game_id = game.id := by
  have hskip : processGameLoop game.id fetch (tf :: l2) =
      processGameLoop game.id fetch l2 := by
    simp [processGameLoop, herr]
  have hmap : (process_game_odds sport game fetch).map (fun r => r.timestamp) =
      l1 ++ l2 := by
    unfold process_game_odds
    rw [hsplit, processGameLoop_append, hskip, List.map_append,
      processGameLoop_map_timestamp game.id fetch l1 h1,
      processGameLoop_map_timestamp game.id fetch l2 h2]
  have hsor : (game_timestamps sport game).Sorted (· < ·) := by
    unfold game_timestamps
    exact generate_sorted _ _ _ _
  refine ⟨hmap, ?_, ?_, ?_, ?_⟩
  · have hlen : (process_game_odds sport game fetch).length = (l1 ++ l2).length := by
      rw [← hmap, List.length_map]
    rw [hlen, hsplit]
    simp only [List.length_append, List.length_cons]
    omega
  · rw [hmap]
    rw [hsplit] at hsor
    exact List.Pairwise.sublist ((List.sublist_cons_self tf l2).append_left l1) hsor
  · rw [hmap]
    intro hmem
    rcases List.mem_append.mp hmem with hm | hm
    · obtain ⟨p, hp, _⟩ := h1 tf hm
      rw [herr] at hp
      cases hp
    · obtain ⟨p, hp, _⟩ := h2 tf hm
      rw [herr] at hp
      cases hp
  · unfold process_game_odds
    exact processGameLoop_game_id game.id fetch _

/-- The snapshot-fetcher stub used by the witness for C7: fails only at
timestamp 90, succeeds with a non-empty payload everywhere else. -/
def stubFetch (t : Nat) : Except String (List (String × String)) :=
  if t = 90 then Except.error "boom" else Except.ok [("h2h", "x")]

/-- Witness for C7: an "nba" game starting at minute 0 generates the 7
timestamps 0..180; `stubFetch` fails only at the mid-sequence timestamp 90. -/
theorem process_game_odds_failure_isolation_witness :
    game_timestamps "nba" ⟨"G1", 0, []⟩ = [0, 30, 60] ++ 90 :: [120, 150, 180] ∧
    stubFetch 90 = Except.error "boom" ∧
    ((process_game_odds "nba" ⟨"G1", 0, []⟩ stubFetch).map
        (fun r => r.timestamp) = [0, 30, 60] ++ [120, 150, 180] ∧
      (process_game_odds "nba" ⟨"G1", 0, []⟩ stubFetch).length =
        (game_timestamps "nba" ⟨"G1", 0, []⟩).length - 1 ∧
      ((process_game_odds "nba" ⟨"G1", 0, []⟩ stubFetch).map
        (fun r => r.timestamp)).Sorted (· < ·) ∧
      90 ∉ (process_game_odds "nba" ⟨"G1", 0, []⟩ stubFetch).map
        (fun r => r.timestamp) ∧
      ∀ r ∈ process_game_odds "nba" ⟨"G1", 0, []⟩ stubFetch,
        r.game_id = Game.id ⟨"G1", 0, []⟩) := by
  have hts : game_timestamps "nba" ⟨"G1", 0, []⟩ =
      [0, 30, 60] ++ 90 :: [120, 150, 180] := by
    have hd : game_duration_for "nba" ⟨"G1", 0, []⟩ = 180 := rfl
    rw [game_timestamps, hd, generate_eq]
    norm_num [List.range_succ]
  have hok : ∀ l : List Nat, 90 ∉ l →
      ∀ t ∈ l, ∃ p, stubFetch t = Except.ok p ∧ p ≠ [] := by
    intro l hl t ht
    refine ⟨[("h2h", "x")], ?_, by decide⟩
    have : t ≠ 90 := fun h => hl (h ▸ ht)
    simp [stubFetch, this]
  exact ⟨hts, rfl,
    process_game_odds_failure_isolation "nba" ⟨"G1", 0, []⟩ stubFetch
      [0, 30, 60] [120, 150, 180] 90 "boom" hts rfl
      (hok _ (by decide)) (hok _ (by decide))⟩

lemma filterMap_congr_mem {α β : Type} (l : List α) (f g : α → Option β)
    (h : ∀ a ∈ l, f a = g a) : l.filterMap f = l.filterMap g := by
  induction l with
  | nil => rfl
  | cons a t ih =>
    rw [List.filterMap_cons, List.filterMap_cons, h a (List.mem_cons_self a t),
      ih (fun x hx => h x (List.mem_cons_of_mem _ hx))]

lemma filterMap_getElem?_range {β : Type} (res : List β) :
    (List.range res.length).filterMap (fun i => res[i]?) = res := by
  induction res with
  | nil => rfl
  | cons a t ih =>
    rw [List.length_cons, List.range_succ_eq_map, List.filterMap_cons,
      List.filterMap_map]
    simp only [List.getElem?_cons_zero, Function.comp_def, List.getElem?_cons_succ]
    rw [ih]

lemma find?_completionLog {G R : Type} (proc : G → R) (batch : List G)
    (order : List Nat) (idx : Nat) (hidx : idx < batch.length)
    (hmemo : idx ∈ order) :
    (completionLog proc batch order).find? (fun e => e.fst == idx) =
      some (idx, proc batch[idx]) := by
  have hmem : (idx, proc batch[idx]) ∈ completionLog proc batch order := by
    unfold completionLog
    rw [List.mem_filterMap]
    exact ⟨idx, hmemo, by simp [List.get?_eq_getElem?, List.getElem?_eq_getElem hidx]⟩
  have hsome : ((completionLog proc batch order).find?
      (fun e => e.fst == idx)).isSome := by
    rw [List.find?_isSome]
    exact ⟨(idx, proc batch[idx]), hmem, by simp⟩
  obtain ⟨e, he⟩ := Option.isSome_iff_exists.mp hsome
  have he_key : e.fst = idx := by
    have := List.find?_some he
    simpa using this
  have he_mem : e ∈ completionLog proc batch order := List.mem_of_find?_eq_some he
  unfold completionLog at he_mem
  rw [List.mem_filterMap] at he_mem
  obtain ⟨k, _, hke⟩ := he_mem
  cases hget : batch.get? k with
  | none =>
    rw [hget] at hke
    exact absurd hke (by simp)
  | some g =>
    rw [hget] at hke
    have hke2 : (k, proc g) = e := by simpa using hke
    have hk : k = idx := by rw [← hke2] at he_key; exact he_key
    subst hk
    have hg : g = batch[k] := by
      rw [List.get?_eq_getElem?, List.getElem?_eq_getElem hidx] at hget
      exact (Option.some_inj.mp hget).symm
    rw [he, ← hke2, hg]

lemma gatherByIndex_completionLog {G R : Type} (proc : G → R) (batch : List G)
    (order : List Nat) (hcov : ∀ i, i < batch.length → i ∈ order) :
    gatherByIndex batch.length (completionLog proc batch order) =
      batch.map proc := by
  unfold gatherByIndex
  have hpt : ∀ idx ∈ List.range batch.length,
      ((completionLog proc batch order).find? (fun e => e.fst == idx)).map
        Prod.snd = (batch.map proc)[idx]? := by
    intro idx hidx
    rw [List.mem_range] at hidx
    rw [find?_completionLog proc batch order idx hidx (hcov idx hidx)]
    have hidx2 : idx < (batch.map proc).length := by simpa using hidx
    rw [List.getElem?_eq_getElem hidx2]
    simp
  rw [filterMap_congr_mem _ _ _ hpt]
  have hlen : batch.length = (batch.map proc).length := (List.length_map _ _).symm
  rw [hlen, filterMap_getElem?_range]

lemma batches_ne_nil_eq {G : Type} (batch_size : Nat) (hbs : 0 < batch_size)
    (l : List G) (hl : l ≠ []) :
    batches batch_size hbs l =
      l.take batch_size :: batches batch_size hbs (l.drop batch_size) := by
  cases l with
  | nil => exact absurd rfl hl
  | cons a t => simp only [batches]

lemma batches_flatten {G : Type} (batch_size : Nat) (hbs : 0 < batch_size)
    (l : List G) : (batches batch_size hbs l).flatten = l := by
  have H : ∀ n (l : List G), l.length ≤ n →
      (batches batch_size hbs l).flatten = l := by
    intro n
    induction n with
    | zero =>
      intro l hl
      have : l = [] := List.eq_nil_of_length_eq_zero (by omega)
      subst this
      simp [batches]
    | succ n ih =>
      intro l hl
      cases l with
      | nil => simp [batches]
      | cons a t =>
        rw [batches_ne_nil_eq batch_size hbs _ (by simp), List.flatten_cons,
          ih _ (by simp only [List.length_drop, List.length_cons] at *; omega),
          List.take_append_drop]
  exact H l.length l (Nat.le_refl _)

lemma batches_mem_size {G : Type} (batch_size : Nat) (hbs : 0 < batch_size)
    (l : List G) :
    ∀ b ∈ batches batch_size hbs l, b.length ≤ batch_size ∧ b ≠ [] := by
  have H : ∀ n (l : List G), l.length ≤ n →
      ∀ b ∈ batches batch_size hbs l, b.length ≤ batch_size ∧ b ≠ [] := by
    intro n
    induction n with
    | zero =>
      intro l hl b hb
      have : l = [] := List.eq_nil_of_length_eq_zero (by omega)
      subst this
      simp [batches] at hb
    | succ n ih =>
      intro l hl b hb
      cases l with
      | nil => simp [batches] at hb
      | cons a t =>
        rw [batches_ne_nil_eq batch_size hbs _ (by simp)] at hb
        cases hb with
        | head =>
          refine ⟨by simp, ?_⟩
          simp only [ne_eq, List.take_eq_nil_iff]
          push_neg
          exact ⟨by omega, by simp⟩
        | tail _ hb =>
          exact ih _ (by simp only [List.length_drop, List.length_cons] at *; omega)
            b hb
  exact H l.length l (Nat.le_refl _)

lemma batches_twelve_five {G : Type} (hbs : 0 < 5) (l : List G)
    (hl : l.length = 12) :
    (batches 5 hbs l).map List.length = [5, 5, 2] := by
  have h1 : l ≠ [] := by
    intro h
    rw [h] at hl
    simp at hl
  have h2 : l.drop 5 ≠ [] := by
    intro h
    have := congrArg List.length h
    simp [hl] at this
  have h3 : (l.drop 5).drop 5 ≠ [] := by
    intro h
    have := congrArg List.length h
    simp [hl] at this
  have h4 : ((l.drop 5).drop 5).drop 5 = [] := by
    apply List.eq_nil_of_length_eq_zero
    simp [hl]
  rw [batches_ne_nil_eq 5 hbs l h1, batches_ne_nil_eq 5 hbs _ h2,
    batches_ne_nil_eq 5 hbs _ h3, h4]
  simp only [batches, List.map_cons, List.map_nil, List.length_take,
    List.length_drop, hl]
  norm_num

lemma season_core {G R : Type} (proc : G → List R) (bl : List (List G)) :
    ∀ orders : List (List Nat),
      (∀ p ∈ bl.zip orders, ∀ i, i < p.1.length → i ∈ p.2) →
      bl.length ≤ orders.length →
      ((bl.zip orders).map
          (fun p => (gatherByIndex p.1.length
            (completionLog proc p.1 p.2)).flatten)).flatten =
        ((bl.flatten).map proc).flatten := by
  induction bl with
  | nil =>
    intro orders _ _
    simp
  | cons b bt ih =>
    intro orders hcov hlen
    cases orders with
    | nil => simp at hlen
    | cons o ot =>
      simp only [List.zip_cons_cons, List.map_cons, List.flatten_cons]
      rw [gatherByIndex_completionLog proc b o
        (fun i hi => hcov (b, o) (List.mem_cons_self _ _) i hi)]
      rw [ih ot (fun p hp => hcov p (List.mem_cons_of_mem _ hp))
        (by simpa using hlen)]
      simp [List.map_append, List.flatten_append]

/-- C8: `fetch_season_odds` partitions the input game list into consecutive
batches of at most `batch_size` games, each non-empty (3 batches of sizes
5, 5, 2 for 12 games at `batch_size = 5`), and the flattened output equals
the concatenation of the per-game processor outputs in input-list order —
for every admissible completion order of the tasks inside each batch
(`asyncio.gather` stores results by task index). -/
theorem fetch_season_odds_spec {G R : Type} (proc : G → List R)
    (games : List G) (batch_size : Nat) (hbs : 0 < batch_size)
    (orders : List (List Nat))
    (hlen : (batches batch_size hbs games).length ≤ orders.length)
    (hperm : ∀ p ∈ (batches batch_size hbs games).zip orders,
      p.2.Perm (List.range p.1.length)) :
    fetch_season_odds proc games batch_size hbs orders =
        ((games.map proc).flatten) ∧
    (batches batch_size hbs games).flatten = games ∧
    (∀ b ∈ batches batch_size hbs games, b.length ≤ batch_size ∧ b ≠ []) ∧
    (games.length = 12 → batch_size = 5 →
      (batches batch_size hbs games).map List.length = [5, 5, 2]) := by
  refine ⟨?_, batches_flatten batch_size hbs games,
    batches_mem_size batch_size hbs games, ?_⟩
  · unfold fetch_season_odds
    rw [season_core proc (batches batch_size hbs games) orders
      (fun p hp i hi => ((hperm p hp).mem_iff).mpr (List.mem_range.mpr hi)) hlen,
      batches_flatten batch_size hbs games]
  · intro h12 h5
    subst h5
    exact batches_twelve_five hbs games h12

/-- Witness for C8: 12 games, `batch_size = 5`, with jittered completion
orders inside each batch. -/
theorem fetch_season_odds_spec_witness :
    (batches 5 (by omega) [0, 1, 2, 3, 4, 5, 6, 7, 8, 9, 10, 11]).length ≤
        ([[4, 3, 2, 1, 0], [2, 0, 1, 4, 3], [1, 0]] : List (List Nat)).length ∧
    (∀ p ∈ (batches 5 (by omega)
        [0, 1, 2, 3, 4, 5, 6, 7, 8, 9, 10, 11]).zip
          [[4, 3, 2, 1, 0], [2, 0, 1, 4, 3], [1, 0]],
      p.2.Perm (List.range p.1.length)) ∧
    (fetch_season_odds (fun n => [n, n + 100])
        [0, 1, 2, 3, 4, 5, 6, 7, 8, 9, 10, 11] 5 (by omega)
        [[4, 3, 2, 1, 0], [2, 0, 1, 4, 3], [1, 0]] =
      (([0, 1, 2, 3, 4, 5, 6, 7, 8, 9, 10, 11].map
        (fun n => [n, n + 100])).flatten) ∧
      (batches 5 (by omega) [0, 1, 2, 3, 4, 5, 6, 7, 8, 9, 10, 11]).flatten =
        [0, 1, 2, 3, 4, 5, 6, 7, 8, 9, 10, 11] ∧
      (∀ b ∈ batches 5 (by omega) [0, 1, 2, 3, 4, 5, 6, 7, 8, 9, 10, 11],
        b.length ≤ 5 ∧ b ≠ []) ∧
      (([0, 1, 2, 3, 4, 5, 6, 7, 8, 9, 10, 11] : List Nat).length = 12 → 5 = 5 →
        (batches 5 (by omega)
          [0, 1, 2, 3, 4, 5, 6, 7, 8, 9, 10, 11]).map List.length = [5, 5, 2])) := by
  have hb : batches 5 (by omega) ([0, 1, 2, 3, 4, 5, 6, 7, 8, 9, 10, 11] : List Nat) =
      [[0, 1, 2, 3, 4], [5, 6, 7, 8, 9], [10, 11]] := by
    simp [batches]
  refine ⟨by rw [hb]; decide, by rw [hb]; decide, ?_⟩
  exact fetch_season_odds_spec (fun n => [n, n + 100])
    [0, 1, 2, 3, 4, 5, 6, 7, 8, 9, 10, 11] 5 (by omega)
    [[4, 3, 2, 1, 0], [2, 0, 1, 4, 3], [1, 0]]
    (by rw [hb]; decide) (by rw [hb]; decide)

end HistOdds
